import Mathlib

/-!
Verification of the AbletonOSC message gateway.

This file gives a shallow embedding of the core of the repository:
the OSC dispatcher (`OSCServer.process_message`), the reply path
(`OSCServer.send`), the drain loop (`OSCServer.process`), the shutdown
sequence (`OSCServer.shutdown` / `send_disconnect`), the TCP bulk
protocol (`OSCServer._handle_tcp_client`), and the subscription
registry (`AbletonOSCHandler._start_listen` / `_stop_listen` /
`_clear_listeners`).

Python values are modelled as follows: OSC arguments become the
inductive type `Arg`; a handler is a function from the incoming
parameter tuple to a `HandlerResult`, which is either a returned value
(`none` standing for Python's None, `some args` for a returned tuple)
or a raised exception classified into the classes the dispatcher
distinguishes (`ValueError`, `AttributeError`, anything else).
Side effects (datagrams sent, sockets closed) are modelled as explicit
event lists.
-/

namespace AbletonOSC

/-- An OSC argument value, as built by OscMessageBuilder.add_arg.
The builder distinguishes Python ints, floats, strings and booleans;
the claims under study only involve ints, strings and booleans, and
floats are represented opaquely by their index in this embedding. -/
inductive Arg where
  | intArg (n : Int)
  | strArg (s : String)
  | boolArg (b : Bool)
  | floatArg (bits : Nat)
deriving DecidableEq, Repr

/-- A (host, port) network address, as a Python 2-tuple. -/
abbrev NetAddr := String × Nat

/-- A decoded OSC message: address plus ordered argument list.
Mirrors pythonosc's OscMessage as consumed by process_message. -/
structure OscMessage where
  address : String
  params : List Arg
deriving DecidableEq, Repr

/-- The exception classes that OSCServer.process_message distinguishes
in its wildcard fan-out: ValueError and AttributeError are caught and
skipped; any other exception propagates out of the fan-out loop. -/
inductive PyExn where
  | valueError
  | attributeError
  | otherError
deriving DecidableEq, Repr

/-- The outcome of invoking a handler: a returned value (Python None or
a tuple of OSC args) or a raised exception. -/
inductive HandlerResult where
  | ret (rv : Option (List Arg))
  | exn (e : PyExn)
deriving DecidableEq, Repr

/-- A registered OSC callback, taking the message's params tuple. -/
abbrev Handler := List Arg → HandlerResult

/-- A datagram sent through OSCServer.send: address, args and the
resolved destination address. -/
structure SendRecord where
  address : String
  params : List Arg
  dest : NetAddr
deriving DecidableEq, Repr

/-- Python dict membership plus lookup on the _callbacks table:
the first (unique) binding for the given address. -/
def lookupCallback (callbacks : List (String × Handler)) (address : String) :
    Option Handler :=
  (callbacks.find? (fun p => p.1 == address)).map (fun p => p.2)

/-- The suffixes of ts reachable by consuming one or more leading
characters none of which is a slash: the ways the regex fragment
produced for a `*` (one or more non-delimiter characters) can consume
input. -/
def starSuffixes : List Char → List (List Char)
  | [] => []
  | t :: ts => if t = '/' then [] else ts :: starSuffixes ts

/-- process_message builds the wildcard pattern with
address.replace applied to the star, turning each `*` into a character
class matching one or more non-slash characters, and tests it with
re.match, which anchors at the start but not at the end.  `patMatchL
pat target` decides whether that regex matches a prefix of target;
non-star pattern characters are literals (registered addresses contain
no other regex metacharacters). -/
def patMatchL : List Char → List Char → Bool
  | [], _ => true
  | p :: ps, ts =>
    if p = '*' then
      (starSuffixes ts).any (fun rest => patMatchL ps rest)
    else
      match ts with
      | [] => false
      | t :: ts2 => p == t && patMatchL ps ts2

/-- String-level wrapper for `patMatchL`. -/
def patMatch (pattern target : String) : Bool :=
  patMatchL pattern.data target.data

/-- The wildcard fan-out loop of process_message: iterate over the
_callbacks table in insertion order; for each registration whose
address matches the pattern, invoke the handler; a ValueError or
AttributeError is caught and the loop continues; any other exception
propagates, aborting the remaining iterations; a returned tuple is
sent back at the registration's own address to the given destination.
Returns the datagrams sent (in order) and the propagated exception,
if any. -/
def wildcardScan (callbacks : List (String × Handler)) (pattern : String)
    (params : List Arg) (dest : NetAddr) : List SendRecord × Option PyExn :=
  match callbacks with
  | [] => ([], none)
  | (cbAddr, cb) :: rest =>
    if patMatch pattern cbAddr then
      match cb params with
      | .exn .valueError => wildcardScan rest pattern params dest
      | .exn .attributeError => wildcardScan rest pattern params dest
      | .exn .otherError => ([], some .otherError)
      | .ret none => wildcardScan rest pattern params dest
      | .ret (some rv) =>
        let tail := wildcardScan rest pattern params dest
        ({ address := cbAddr, params := rv, dest := dest } :: tail.1, tail.2)
    else wildcardScan rest pattern params dest

/-- OSCServer.process_message: if the address has an exact
registration, invoke it; a returned tuple is echoed back at the
message's own address to (sender host, response port); Python None
sends nothing; an exception propagates.  Otherwise, if the address
contains a star, run the wildcard fan-out.  Otherwise log an unknown
address and drop.  Returns the datagrams sent and the propagated
exception, if any. -/
def processMessage (callbacks : List (String × Handler)) (message : OscMessage)
    (remoteAddr : NetAddr) (responsePort : Nat) :
    List SendRecord × Option PyExn :=
  match lookupCallback callbacks message.address with
  | some callback =>
    match callback message.params with
    | .exn e => ([], some e)
    | .ret none => ([], none)
    | .ret (some rv) =>
      ([{ address := message.address, params := rv,
          dest := (remoteAddr.1, responsePort) }], none)
  | none =>
    if message.address.data.contains '*' then
      wildcardScan callbacks message.address message.params
        (remoteAddr.1, responsePort)
    else
      ([], none)

/-- The replies the wildcard fan-out is expected to produce: one send
per registration whose address matches the pattern and whose handler
returns a tuple, at the registration's own address, in table order. -/
def matchedReplies (callbacks : List (String × Handler)) (pattern : String)
    (params : List Arg) (dest : NetAddr) : List SendRecord :=
  callbacks.filterMap (fun p =>
    if patMatch pattern p.1 then
      match p.2 params with
      | .ret (some rv) => some { address := p.1, params := rv, dest := dest }
      | _ => none
    else none)

theorem processMessage_exact (callbacks : List (String × Handler))
    (message : OscMessage) (remoteAddr : NetAddr) (responsePort : Nat)
    (h : Handler) (hlook : lookupCallback callbacks message.address = some h) :
    processMessage callbacks message remoteAddr responsePort =
      match h message.params with
      | .exn e => ([], some e)
      | .ret none => ([], none)
      | .ret (some rv) =>
        ([{ address := message.address, params := rv,
            dest := (remoteAddr.1, responsePort) }], none) := by
  unfold processMessage
  rw [hlook]

theorem processMessage_wildcard (callbacks : List (String × Handler))
    (message : OscMessage) (remoteAddr : NetAddr) (responsePort : Nat)
    (hnone : lookupCallback callbacks message.address = none)
    (hstar : message.address.data.contains '*' = true) :
    processMessage callbacks message remoteAddr responsePort =
      wildcardScan callbacks message.address message.params
        (remoteAddr.1, responsePort) := by
  unfold processMessage
  rw [hnone, hstar]
  simp

theorem wildcardScan_sends (callbacks : List (String × Handler))
    (pattern : String) (params : List Arg) (dest : NetAddr) :
    ∀ s ∈ (wildcardScan callbacks pattern params dest).1,
      s.dest = dest ∧
      ∃ cb, (s.address, cb) ∈ callbacks ∧ patMatch pattern s.address = true ∧
        cb params = .ret (some s.params) := by
  induction callbacks with
  | nil => intro s hs; simp [wildcardScan] at hs
  | cons head rest ih =>
    obtain ⟨cbAddr, cb⟩ := head
    intro s hs
    rw [wildcardScan] at hs
    by_cases hm : patMatch pattern cbAddr = true
    · rw [if_pos hm] at hs
      rcases hcb : cb params with rv | e
      · rcases rv with _ | rv
        · rw [hcb] at hs
          obtain ⟨hd, cb2, hmem, hpat, hret⟩ := ih s hs
          exact ⟨hd, cb2, List.mem_cons_of_mem _ hmem, hpat, hret⟩
        · rw [hcb] at hs
          rcases List.mem_cons.mp hs with hhead | htail
          · subst hhead
            exact ⟨rfl, cb, List.mem_cons_self _ _, hm, hcb⟩
          · obtain ⟨hd, cb2, hmem, hpat, hret⟩ := ih s htail
            exact ⟨hd, cb2, List.mem_cons_of_mem _ hmem, hpat, hret⟩
      · rcases e with _ | _ | _ <;> rw [hcb] at hs
        · obtain ⟨hd, cb2, hmem, hpat, hret⟩ := ih s hs
          exact ⟨hd, cb2, List.mem_cons_of_mem _ hmem, hpat, hret⟩
        · obtain ⟨hd, cb2, hmem, hpat, hret⟩ := ih s hs
          exact ⟨hd, cb2, List.mem_cons_of_mem _ hmem, hpat, hret⟩
        · simp at hs
    · rw [if_neg hm] at hs
      obtain ⟨hd, cb2, hmem, hpat, hret⟩ := ih s hs
      exact ⟨hd, cb2, List.mem_cons_of_mem _ hmem, hpat, hret⟩

theorem wildcardScan_all_benign (callbacks : List (String × Handler))
    (pattern : String) (params : List Arg) (dest : NetAddr)
    (hben : ∀ p ∈ callbacks, patMatch pattern p.1 = true →
      p.2 params ≠ HandlerResult.exn PyExn.otherError) :
    wildcardScan callbacks pattern params dest =
      (matchedReplies callbacks pattern params dest, none) := by
  induction callbacks with
  | nil => simp [wildcardScan, matchedReplies]
  | cons head rest ih =>
    obtain ⟨cbAddr, cb⟩ := head
    have hrest : ∀ p ∈ rest, patMatch pattern p.1 = true →
        p.2 params ≠ HandlerResult.exn PyExn.otherError :=
      fun p hp => hben p (List.mem_cons_of_mem _ hp)
    rw [wildcardScan, matchedReplies]
    by_cases hm : patMatch pattern cbAddr = true
    · rw [if_pos hm]
      rcases hcb : cb params with rv | e
      · rcases rv with _ | rv
        · simp only [hcb, List.filterMap_cons]
          rw [ih hrest]
          simp [matchedReplies, hm, hcb]
        · simp only [hcb, List.filterMap_cons]
          rw [ih hrest]
          simp [matchedReplies, hm, hcb]
      · rcases e with _ | _ | _
        · simp only [hcb, List.filterMap_cons]
          rw [ih hrest]
          simp [matchedReplies, hm, hcb]
        · simp only [hcb, List.filterMap_cons]
          rw [ih hrest]
          simp [matchedReplies, hm, hcb]
        · exact absurd hcb (hben (cbAddr, cb) (List.mem_cons_self _ _) hm)
    · rw [if_neg hm]
      simp only [List.filterMap_cons]
      rw [ih hrest]
      simp [matchedReplies, hm]

/-- Claim C1: an inbound message whose address has an exact
registration and whose handler returns a tuple causes exactly one
reply datagram, at the same address, with exactly the returned
arguments, sent to the sender's host paired with the fixed response
port; the result does not depend on the sender's source port; a
handler returning None sends nothing. -/
theorem exact_registration_reply (callbacks : List (String × Handler))
    (message : OscMessage) (remoteAddr : NetAddr) (responsePort : Nat)
    (h : Handler) (hlook : lookupCallback callbacks message.address = some h) :
    (∀ rv, h message.params = .ret (some rv) →
      processMessage callbacks message remoteAddr responsePort =
        ([{ address := message.address, params := rv,
            dest := (remoteAddr.1, responsePort) }], none)) ∧
    (h message.params = .ret none →
      processMessage callbacks message remoteAddr responsePort = ([], none)) ∧
    (∀ senderPort : Nat,
      processMessage callbacks message (remoteAddr.1, senderPort) responsePort =
        processMessage callbacks message remoteAddr responsePort) := by
  refine ⟨?_, ?_, ?_⟩
  · intro rv hrv
    rw [processMessage_exact callbacks message remoteAddr responsePort h hlook, hrv]
  · intro hrv
    rw [processMessage_exact callbacks message remoteAddr responsePort h hlook, hrv]
  · intro senderPort
    rw [processMessage_exact callbacks message remoteAddr responsePort h hlook,
      processMessage_exact callbacks message (remoteAddr.1, senderPort) responsePort h hlook]

/-- Claim C1 witness: registering a handler at /test that returns
(1, 2, 3) and dispatching a datagram addressed to /test from
192.168.0.5 port 49152 produces exactly one reply at /test with
arguments (1, 2, 3) to host 192.168.0.5 on the fixed response port
11001, not the sender's port. -/
theorem exact_registration_reply_witness :
    processMessage
      [("/test", fun _ => .ret (some [.intArg 1, .intArg 2, .intArg 3]))]
      ⟨"/test", []⟩ ("192.168.0.5", 49152) 11001 =
      ([{ address := "/test", params := [.intArg 1, .intArg 2, .intArg 3],
          dest := ("192.168.0.5", 11001) }], none) :=
  (exact_registration_reply
    [("/test", fun _ => .ret (some [.intArg 1, .intArg 2, .intArg 3]))]
    ⟨"/test", []⟩ ("192.168.0.5", 49152) 11001 _ rfl).1 _ rfl

/-- Claim C10: an exactly-registered handler returning the empty tuple
still triggers a reply with zero arguments at the request's address to
the reply target; only a handler returning None suppresses the
reply. -/
theorem empty_tuple_still_replies (callbacks : List (String × Handler))
    (message : OscMessage) (remoteAddr : NetAddr) (responsePort : Nat)
    (h : Handler) (hlook : lookupCallback callbacks message.address = some h) :
    (h message.params = .ret (some []) →
      processMessage callbacks message remoteAddr responsePort =
        ([{ address := message.address, params := [],
            dest := (remoteAddr.1, responsePort) }], none)) ∧
    (h message.params = .ret none →
      processMessage callbacks message remoteAddr responsePort = ([], none)) := by
  refine ⟨?_, ?_⟩ <;> intro hrv <;>
    rw [processMessage_exact callbacks message remoteAddr responsePort h hlook, hrv]

/-- Claim C10 witness: a handler at /ping returning the empty tuple
produces one zero-argument reply at /ping to the sender's host on the
response port. -/
theorem empty_tuple_still_replies_witness :
    processMessage [("/ping", fun _ => .ret (some []))]
      ⟨"/ping", []⟩ ("10.1.1.1", 60000) 11001 =
      ([{ address := "/ping", params := [], dest := ("10.1.1.1", 11001) }],
        none) :=
  (empty_tuple_still_replies [("/ping", fun _ => .ret (some []))]
    ⟨"/ping", []⟩ ("10.1.1.1", 60000) 11001 _ rfl).1 rfl

/-- Claim C2 counterexample: with a single registration at
/live/track/get/name returning a tuple, dispatching the wildcard
address /live/star/get/name (star written as an asterisk) produces a
reply at the registration's own concrete address, which differs from
the wildcard-bearing incoming address the request used — refuting
"encoded at the same address the request used" for the wildcard
path. -/
theorem wildcard_reply_address_counterexample :
    (processMessage [("/live/track/get/name", fun _ => .ret (some [.strArg "Track 1"]))]
        ⟨"/live/*/get/name", []⟩ ("10.0.0.2", 50000) 11001).1 =
      [{ address := "/live/track/get/name", params := [.strArg "Track 1"],
         dest := ("10.0.0.2", 11001) }] ∧
    "/live/track/get/name" ≠ "/live/*/get/name" := by
  constructor
  · rfl
  · decide

/-- Claim C2 amended: every reply produced during wildcard fan-out is
encoded at the matched registration's own address (not the incoming
wildcard-bearing address) and is sent to the sender's host on the
fixed response port; its arguments are exactly what the matched
handler returned. -/
theorem wildcard_reply_uses_matched_address (callbacks : List (String × Handler))
    (message : OscMessage) (remoteAddr : NetAddr) (responsePort : Nat)
    (hnone : lookupCallback callbacks message.address = none)
    (hstar : message.address.data.contains '*' = true) :
    ∀ s ∈ (processMessage callbacks message remoteAddr responsePort).1,
      s.dest = (remoteAddr.1, responsePort) ∧
      ∃ cb, (s.address, cb) ∈ callbacks ∧
        patMatch message.address s.address = true ∧
        cb message.params = .ret (some s.params) := by
  rw [processMessage_wildcard callbacks message remoteAddr responsePort hnone hstar]
  exact wildcardScan_sends callbacks message.address message.params
    (remoteAddr.1, responsePort)

/-- Claim C2 amended witness: the concrete wildcard dispatch of the
counterexample satisfies the amended property at its single reply. -/
theorem wildcard_reply_uses_matched_address_witness :
    ({ address := "/live/track/get/name", params := [.strArg "Track 1"],
       dest := ("10.0.0.2", 11001) } : SendRecord).dest = ("10.0.0.2", 11001) ∧
    ∃ cb, (("/live/track/get/name", cb) ∈
        ([("/live/track/get/name", fun _ => .ret (some [.strArg "Track 1"]))] :
          List (String × Handler))) ∧
      patMatch "/live/*/get/name" "/live/track/get/name" = true ∧
      cb [] = .ret (some [.strArg "Track 1"]) :=
  wildcard_reply_uses_matched_address
    [("/live/track/get/name", fun _ => .ret (some [.strArg "Track 1"]))]
    ⟨"/live/*/get/name", []⟩ ("10.0.0.2", 50000) 11001 rfl rfl
    { address := "/live/track/get/name", params := [.strArg "Track 1"],
      dest := ("10.0.0.2", 11001) } (by rw [processMessage]; exact List.mem_singleton.mpr rfl)

/-- Claim C3 counterexample: two registrations both match the wildcard
pattern; the first raises an exception that is neither a ValueError
nor an AttributeError, and the fan-out aborts: the second matching
handler, which returns (7,), produces no reply — refuting "the
fan-out continues past any individual handler failure". -/
theorem wildcard_fanout_abort_counterexample :
    processMessage
      [("/live/a/get/x", fun _ => .exn .otherError),
       ("/live/b/get/x", fun _ => .ret (some [.intArg 7]))]
      ⟨"/live/*/get/x", []⟩ ("10.0.0.2", 50000) 11001 =
      ([], some .otherError) ∧
    patMatch "/live/*/get/x" "/live/b/get/x" = true := by
  constructor
  · rfl
  · decide

/-- Claim C3 amended: during wildcard fan-out, as long as no matched
handler raises an exception other than ValueError or AttributeError,
every registration whose address matches the pattern is invoked in
table order: the output is exactly one reply per matched handler that
returns a tuple, and matched handlers raising ValueError or
AttributeError (argument-arity and capability errors) are silently
skipped without preventing the remaining matching handlers from
running; an exception of any other class aborts the remaining
fan-out. -/
theorem wildcard_fanout_skips_arity_errors (callbacks : List (String × Handler))
    (message : OscMessage) (remoteAddr : NetAddr) (responsePort : Nat)
    (hnone : lookupCallback callbacks message.address = none)
    (hstar : message.address.data.contains '*' = true)
    (hben : ∀ p ∈ callbacks, patMatch message.address p.1 = true →
      p.2 message.params ≠ HandlerResult.exn PyExn.otherError) :
    processMessage callbacks message remoteAddr responsePort =
      (matchedReplies callbacks message.address message.params
        (remoteAddr.1, responsePort), none) := by
  rw [processMessage_wildcard callbacks message remoteAddr responsePort hnone hstar]
  exact wildcardScan_all_benign callbacks message.address message.params
    (remoteAddr.1, responsePort) hben

/-- Claim C3 amended witness: with a matched handler raising a
ValueError between two other registrations (one matching and
returning a tuple, one not matching), the fan-out skips the arity
error and still produces the reply of the other matching handler. -/
theorem wildcard_fanout_skips_arity_errors_witness :
    processMessage
      [("/live/a/get/x", fun _ => .exn .valueError),
       ("/live/b/get/x", fun _ => .ret (some [.intArg 5])),
       ("/other", fun _ => .ret (some [.intArg 9]))]
      ⟨"/live/*/get/x", []⟩ ("10.0.0.7", 40000) 11001 =
      ([{ address := "/live/b/get/x", params := [.intArg 5],
          dest := ("10.0.0.7", 11001) }], none) :=
  (wildcard_fanout_skips_arity_errors
    [("/live/a/get/x", fun _ => .exn .valueError),
     ("/live/b/get/x", fun _ => .ret (some [.intArg 5])),
     ("/other", fun _ => .ret (some [.intArg 9]))]
    ⟨"/live/*/get/x", []⟩ ("10.0.0.7", 40000) 11001 rfl rfl
    (by decide)).trans (by rfl)

/-! ## Subscription registry (AbletonOSCHandler) -/

/-- A subscription key: (property name, parameter tuple), as built by
listener_key in _start_listen and _stop_listen. -/
abbrev ListenKey := String × List Arg

/-- The state of one AbletonOSCHandler's subscription registry,
together with the observable effects of its operations.
listenerFunctions maps a key to the identity of the stored
property_changed_callback closure (callback identities are drawn from
a counter, so each installed closure is distinct); listenerObjects
maps a key to the target object it was installed on; nativeHooks is
the multiset of change-hooks currently installed on Live objects, as
(target, property, callback identity) triples; emissions records, in
order, every datagram sent by a property_changed_callback
invocation. -/
structure RegistryState where
  listenerFunctions : List (ListenKey × Nat)
  listenerObjects : List (ListenKey × Nat)
  nativeHooks : List (Nat × String × Nat)
  emissions : List (String × List Arg)
  nextId : Nat
deriving DecidableEq, Repr

/-- The registry of a freshly constructed handler: both dicts empty. -/
def initialRegistry : RegistryState :=
  { listenerFunctions := [], listenerObjects := [], nativeHooks := [],
    emissions := [], nextId := 0 }

/-- Python dict membership (the `in` test) on an association list. -/
def containsKey {A : Type} (m : List (ListenKey × A)) (k : ListenKey) : Bool :=
  m.any (fun p => p.1 == k)

/-- Python dict subscript: the value bound to k, if any. -/
def lookupEntry {A : Type} (m : List (ListenKey × A)) (k : ListenKey) : Option A :=
  (m.find? (fun p => p.1 == k)).map (fun p => p.2)

/-- Python dict assignment: overwrite the binding in place if the key
is present, else append a new binding (dicts preserve insertion
order). -/
def insertKey {A : Type} (m : List (ListenKey × A)) (k : ListenKey) (v : A) :
    List (ListenKey × A) :=
  if containsKey m k then m.map (fun p => if p.1 == k then (k, v) else p)
  else m ++ [(k, v)]

/-- Python del on a dict: drop the binding for k. -/
def eraseKey {A : Type} (m : List (ListenKey × A)) (k : ListenKey) :
    List (ListenKey × A) :=
  m.filter (fun p => p.1 != k)

/-- AbletonOSCHandler._stop_listen: if the key is absent, log a
warning and return (a no-op).  Otherwise fetch the stored callback and
call the target's native remove-listener function; if that call
raises (removeRaises — e.g. the observed object was destroyed), the
exception is caught and logged inside _stop_listen, so the native
hook is left in place but control continues; in either case both
dict entries for the key are then deleted.  The function is total:
no exception escapes to the caller. -/
def stopListen (st : RegistryState) (target : Nat) (prop : String)
    (params : List Arg) (removeRaises : Bool) : RegistryState :=
  let key : ListenKey := (prop, params)
  match lookupEntry st.listenerFunctions key with
  | none => st
  | some cbId =>
    let hooks := if removeRaises then st.nativeHooks
      else st.nativeHooks.filter (fun h => h != (target, prop, cbId))
    { st with nativeHooks := hooks,
              listenerFunctions := eraseKey st.listenerFunctions key,
              listenerObjects := eraseKey st.listenerObjects key }

/-- The reply address a property_changed_callback sends to:
the string built from the class identifier and the property name. -/
def oscAddressFor (classId prop : String) : String :=
  "/live/" ++ classId ++ "/get/" ++ prop

/-- AbletonOSCHandler._start_listen: if the key is already present in
listener_functions, first run _stop_listen for it (idempotent
resubscribe; removeRaises tells whether that native removal raises).
Then install a fresh property_changed_callback as a native hook on
the target, store it in listener_functions and the target in
listener_objects, and immediately invoke the callback once, which
reads the current value (abstracted here by env, covering both the
direct property read and the custom getter) and sends one datagram to
the listen address with payload params followed by the value. -/
def startListen (st : RegistryState) (classId : String)
    (env : Nat → String → List Arg) (target : Nat) (prop : String)
    (params : List Arg) (removeRaises : Bool) : RegistryState :=
  let key : ListenKey := (prop, params)
  let st1 := if containsKey st.listenerFunctions key then
      stopListen st target prop params removeRaises
    else st
  let cbId := st1.nextId
  { st1 with
    nativeHooks := st1.nativeHooks ++ [(target, prop, cbId)],
    listenerFunctions := insertKey st1.listenerFunctions key cbId,
    listenerObjects := insertKey st1.listenerObjects key target,
    emissions := st1.emissions ++
      [(oscAddressFor classId prop, params ++ env target prop)],
    nextId := cbId + 1 }

/-- AbletonOSCHandler._clear_listeners: snapshot the keys of
listener_functions, and for each look up its target in
listener_objects and stop listening.  (When a key were missing from
listener_objects the Python subscript would raise KeyError; that
state is unreachable — see the registry invariant — and is modelled
as a skip.) -/
def clearListeners (st : RegistryState) (removeRaises : Bool) : RegistryState :=
  (st.listenerFunctions.map Prod.fst).foldl
    (fun s key =>
      match lookupEntry s.listenerObjects key with
      | some target => stopListen s target key.1 key.2 removeRaises
      | none => s) st

/-- One externally triggered registry operation, with the environment
choice of whether the native listener removal it performs raises. -/
inductive RegOp where
  | startOp (classId : String) (target : Nat) (prop : String)
      (params : List Arg) (removeRaises : Bool)
  | stopOp (target : Nat) (prop : String) (params : List Arg)
      (removeRaises : Bool)
  | clearOp (removeRaises : Bool)

/-- Apply one registry operation. -/
def applyOp (env : Nat → String → List Arg) (st : RegistryState) :
    RegOp → RegistryState
  | .startOp classId target prop params rb =>
    startListen st classId env target prop params rb
  | .stopOp target prop params rb => stopListen st target prop params rb
  | .clearOp rb => clearListeners st rb

/-- Run a sequence of registry operations from the fresh registry. -/
def runOps (env : Nat → String → List Arg) (ops : List RegOp) : RegistryState :=
  ops.foldl (applyOp env) initialRegistry

/-- The number of native change-hooks currently installed for a given
(target, property) pair. -/
def hookCount (st : RegistryState) (target : Nat) (prop : String) : Nat :=
  st.nativeHooks.countP (fun h => h.1 == target && h.2.1 == prop)

/-! ## Registry lemmas -/

theorem containsKey_eraseKey {A : Type} (m : List (ListenKey × A)) (k : ListenKey) :
    containsKey (eraseKey m k) k = false := by
  rw [containsKey, List.any_eq_false]
  intro p hp
  rw [eraseKey, List.mem_filter] at hp
  simpa using hp.2

theorem containsKey_append_self {A : Type} (m : List (ListenKey × A))
    (k : ListenKey) (v : A) : containsKey (m ++ [(k, v)]) k = true := by
  simp [containsKey]

theorem lookupEntry_append_self {A : Type} (m : List (ListenKey × A))
    (k : ListenKey) (v : A) (h : containsKey m k = false) :
    lookupEntry (m ++ [(k, v)]) k = some v := by
  rw [containsKey, List.any_eq_false] at h
  rw [lookupEntry, List.find?_append]
  have hnone : m.find? (fun p => p.1 == k) = none := List.find?_eq_none.mpr h
  simp [hnone]

/-- The key list of an association list. -/
def keysOf {A : Type} (m : List (ListenKey × A)) : List ListenKey :=
  m.map Prod.fst

theorem containsKey_eq_keys {A : Type} (m : List (ListenKey × A)) (k : ListenKey) :
    containsKey m k = (keysOf m).any (fun a => a == k) := by
  induction m with
  | nil => rfl
  | cons head tail ih =>
    simp only [containsKey, keysOf, List.map_cons, List.any_cons] at *
    rw [ih]

theorem keysOf_eraseKey {A : Type} (m : List (ListenKey × A)) (k : ListenKey) :
    keysOf (eraseKey m k) = (keysOf m).filter (fun a => a != k) := by
  induction m with
  | nil => rfl
  | cons head tail ih =>
    simp only [eraseKey, keysOf, List.map_cons, List.filter_cons] at *
    by_cases h : (head.1 != k) = true
    · rw [if_pos h, if_pos h, List.map_cons, ih]
    · rw [if_neg h, if_neg h, ih]

theorem keysOf_insertKey {A : Type} (m : List (ListenKey × A)) (k : ListenKey)
    (v : A) :
    keysOf (insertKey m k v) =
      if containsKey m k then keysOf m else keysOf m ++ [k] := by
  rw [insertKey]
  by_cases h : containsKey m k = true
  · rw [if_pos h, if_pos h, keysOf, keysOf, List.map_map]
    apply List.map_congr_left
    intro p _
    by_cases hk : (p.1 == k) = true
    · simp only [Function.comp_apply, if_pos hk]
      exact (eq_of_beq hk).symm
    · simp only [Function.comp_apply, if_neg hk]
  · rw [if_neg h, if_neg h, keysOf, keysOf, List.map_append]
    rfl

/-- The registry invariant of claim C9: listener_functions and
listener_objects always hold exactly the same keys, in the same
order. -/
def RegistryInv (st : RegistryState) : Prop :=
  keysOf st.listenerFunctions = keysOf st.listenerObjects

theorem registryInv_initial : RegistryInv initialRegistry := rfl

theorem registryInv_stopListen (st : RegistryState) (target : Nat)
    (prop : String) (params : List Arg) (rb : Bool) (hinv : RegistryInv st) :
    RegistryInv (stopListen st target prop params rb) := by
  rw [stopListen]
  cases h : lookupEntry st.listenerFunctions (prop, params) with
  | none => exact hinv
  | some cbId =>
    show keysOf (eraseKey st.listenerFunctions (prop, params)) =
      keysOf (eraseKey st.listenerObjects (prop, params))
    rw [keysOf_eraseKey, keysOf_eraseKey, hinv]

theorem registryInv_startListen (st : RegistryState) (classId : String)
    (env : Nat → String → List Arg) (target : Nat) (prop : String)
    (params : List Arg) (rb : Bool) (hinv : RegistryInv st) :
    RegistryInv (startListen st classId env target prop params rb) := by
  rw [startListen]
  have hinv1 : RegistryInv
      (if containsKey st.listenerFunctions (prop, params) then
        stopListen st target prop params rb else st) := by
    by_cases h : containsKey st.listenerFunctions (prop, params) = true
    · rw [if_pos h]; exact registryInv_stopListen st target prop params rb hinv
    · rw [if_neg h]; exact hinv
  set st1 := if containsKey st.listenerFunctions (prop, params) then
    stopListen st target prop params rb else st with hst1
  show keysOf (insertKey st1.listenerFunctions (prop, params) st1.nextId) =
    keysOf (insertKey st1.listenerObjects (prop, params) target)
  rw [keysOf_insertKey, keysOf_insertKey, hinv1,
    containsKey_eq_keys, containsKey_eq_keys, hinv1]

theorem registryInv_clearListeners (st : RegistryState) (rb : Bool)
    (hinv : RegistryInv st) : RegistryInv (clearListeners st rb) := by
  rw [clearListeners]
  generalize st.listenerFunctions.map Prod.fst = keyList
  induction keyList generalizing st with
  | nil => exact hinv
  | cons key rest ih =>
    rw [List.foldl_cons]
    cases h : lookupEntry st.listenerObjects key with
    | none => exact ih st hinv
    | some target =>
      exact ih (stopListen st target key.1 key.2 rb)
        (registryInv_stopListen st target key.1 key.2 rb hinv)

theorem registryInv_applyOp (env : Nat → String → List Arg)
    (st : RegistryState) (op : RegOp) (hinv : RegistryInv st) :
    RegistryInv (applyOp env st op) := by
  cases op with
  | startOp classId target prop params rb =>
    exact registryInv_startListen st classId env target prop params rb hinv
  | stopOp target prop params rb =>
    exact registryInv_stopListen st target prop params rb hinv
  | clearOp rb => exact registryInv_clearListeners st rb hinv

theorem registryInv_runOps (env : Nat → String → List Arg) (ops : List RegOp) :
    RegistryInv (runOps env ops) := by
  rw [runOps]
  have h : ∀ st : RegistryState, RegistryInv st →
      RegistryInv (ops.foldl (applyOp env) st) := by
    induction ops with
    | nil => exact fun st h => h
    | cons op rest ih =>
      intro st h
      exact ih (applyOp env st op) (registryInv_applyOp env st op h)
  exact h initialRegistry registryInv_initial

/-- Claim C9: in every state reachable by a sequence of _start_listen,
_stop_listen and _clear_listeners operations from a fresh handler, a
key is present in listener_functions if and only if it is present in
listener_objects: every operation inserts into or deletes from both
dicts together. -/
theorem registry_key_sets_agree (env : Nat → String → List Arg)
    (ops : List RegOp) (k : ListenKey) :
    containsKey (runOps env ops).listenerFunctions k = true ↔
    containsKey (runOps env ops).listenerObjects k = true := by
  rw [containsKey_eq_keys, containsKey_eq_keys, registryInv_runOps env ops]

/-- Claim C6: on a Subscribed key, _stop_listen deletes the key's
entries from both registry dicts even when the native hook-removal
call raises (removeRaises arbitrary, covering the raising case): the
exception is caught inside _stop_listen — which is total, so nothing
propagates — and the key ends Unsubscribed with both entries
cleared. -/
theorem stop_listen_clears_entry_despite_raise (st : RegistryState)
    (target : Nat) (prop : String) (params : List Arg) (rb : Bool) (cbId : Nat)
    (hsub : lookupEntry st.listenerFunctions (prop, params) = some cbId) :
    containsKey (stopListen st target prop params rb).listenerFunctions
      (prop, params) = false ∧
    containsKey (stopListen st target prop params rb).listenerObjects
      (prop, params) = false := by
  rw [stopListen, hsub]
  exact ⟨containsKey_eraseKey _ _, containsKey_eraseKey _ _⟩

/-- Claim C6 witness: stopping a concrete subscription for property
color with params (0,) on target 3 whose native removal raises still
clears both registry entries. -/
theorem stop_listen_clears_entry_despite_raise_witness :
    containsKey (stopListen
      { listenerFunctions := [(("color", [Arg.intArg 0]), 0)],
        listenerObjects := [(("color", [Arg.intArg 0]), 3)],
        nativeHooks := [(3, "color", 0)], emissions := [], nextId := 1 }
      3 "color" [Arg.intArg 0] true).listenerFunctions
      ("color", [Arg.intArg 0]) = false ∧
    containsKey (stopListen
      { listenerFunctions := [(("color", [Arg.intArg 0]), 0)],
        listenerObjects := [(("color", [Arg.intArg 0]), 3)],
        nativeHooks := [(3, "color", 0)], emissions := [], nextId := 1 }
      3 "color" [Arg.intArg 0] true).listenerObjects
      ("color", [Arg.intArg 0]) = false :=
  stop_listen_clears_entry_despite_raise
    { listenerFunctions := [(("color", [Arg.intArg 0]), 0)],
      listenerObjects := [(("color", [Arg.intArg 0]), 3)],
      nativeHooks := [(3, "color", 0)], emissions := [], nextId := 1 }
    3 "color" [Arg.intArg 0] true 0 rfl

theorem insertKey_of_not_contains {A : Type} (m : List (ListenKey × A))
    (k : ListenKey) (v : A) (h : containsKey m k = false) :
    insertKey m k v = m ++ [(k, v)] := by
  rw [insertKey, if_neg (by simp [h])]

theorem containsKey_of_lookup {A : Type} (m : List (ListenKey × A))
    (k : ListenKey) (v : A) (h : lookupEntry m k = some v) :
    containsKey m k = true := by
  rw [lookupEntry] at h
  rcases hf : m.find? (fun p => p.1 == k) with _ | p
  · rw [hf] at h; simp at h
  · have hmem := List.mem_of_find?_eq_some hf
    have hp := List.find?_some hf
    rw [containsKey, List.any_eq_true]
    exact ⟨p, hmem, hp⟩

theorem startListen_fresh (st : RegistryState) (classId : String)
    (env : Nat → String → List Arg) (target : Nat) (prop : String)
    (params : List Arg) (rb : Bool)
    (hnew : containsKey st.listenerFunctions (prop, params) = false) :
    startListen st classId env target prop params rb =
      { st with
        nativeHooks := st.nativeHooks ++ [(target, prop, st.nextId)],
        listenerFunctions := st.listenerFunctions ++ [((prop, params), st.nextId)],
        listenerObjects := insertKey st.listenerObjects (prop, params) target,
        emissions := st.emissions ++
          [(oscAddressFor classId prop, params ++ env target prop)],
        nextId := st.nextId + 1 } := by
  simp only [startListen, hnew, Bool.false_eq_true, if_false,
    insertKey_of_not_contains st.listenerFunctions (prop, params) st.nextId hnew]

theorem startListen_resub (st : RegistryState) (classId : String)
    (env : Nat → String → List Arg) (target : Nat) (prop : String)
    (params : List Arg) (cbId : Nat)
    (hsub : lookupEntry st.listenerFunctions (prop, params) = some cbId) :
    startListen st classId env target prop params false =
      { st with
        nativeHooks := st.nativeHooks.filter
            (fun h => h != (target, prop, cbId)) ++ [(target, prop, st.nextId)],
        listenerFunctions := insertKey (eraseKey st.listenerFunctions
          (prop, params)) (prop, params) st.nextId,
        listenerObjects := insertKey (eraseKey st.listenerObjects
          (prop, params)) (prop, params) target,
        emissions := st.emissions ++
          [(oscAddressFor classId prop, params ++ env target prop)],
        nextId := st.nextId + 1 } := by
  simp only [startListen, stopListen, hsub,
    containsKey_of_lookup st.listenerFunctions (prop, params) cbId hsub, if_true,
    Bool.false_eq_true, if_false]

/-- Claim C4: starting from a state where the key (prop, params) is
not yet subscribed and no hook is installed for (target, prop),
calling _start_listen twice in succession with the same key leaves
exactly one active native change-hook installed for that key — the
second call first tears down the hook the first call installed — and
the second call performs exactly one immediate emission of the
current value, not two (its emissions are those of the first call
plus exactly one new record). -/
theorem start_listen_twice_one_hook (st : RegistryState) (classId : String)
    (env : Nat → String → List Arg) (target : Nat) (prop : String)
    (params : List Arg)
    (hnew : containsKey st.listenerFunctions (prop, params) = false)
    (hhooks : hookCount st target prop = 0) :
    hookCount (startListen (startListen st classId env target prop params false)
      classId env target prop params false) target prop = 1 ∧
    (startListen (startListen st classId env target prop params false)
      classId env target prop params false).emissions =
      (startListen st classId env target prop params false).emissions ++
        [(oscAddressFor classId prop, params ++ env target prop)] := by
  rw [startListen_fresh st classId env target prop params false hnew]
  rw [startListen_resub _ classId env target prop params st.nextId
    (lookupEntry_append_self st.listenerFunctions (prop, params) st.nextId hnew)]
  constructor
  · rw [hookCount] at hhooks ⊢
    simp only [List.filter_append, List.countP_append]
    have hfil : (st.nativeHooks.filter
        (fun h => h != (target, prop, st.nextId))).countP
        (fun h => h.1 == target && h.2.1 == prop) = 0 := by
      rw [List.countP_filter]
      refine Nat.le_zero.mp ?_
      calc st.nativeHooks.countP (fun a =>
            (a.1 == target && a.2.1 == prop) && (a != (target, prop, st.nextId)))
          ≤ st.nativeHooks.countP (fun h => h.1 == target && h.2.1 == prop) :=
            List.countP_mono_left (fun x _ hx => by
              simp only [Bool.and_eq_true] at hx ⊢
              exact hx.1)
        _ = 0 := hhooks
    simp [hfil]
  · simp

/-- Claim C4 witness: subscribing twice to property name with params
(0,) on target 3 from a fresh registry ends with exactly one native
hook for (3, name) and the second call adds exactly one emission. -/
theorem start_listen_twice_one_hook_witness :
    hookCount (startListen (startListen initialRegistry "track"
        (fun _ _ => [Arg.strArg "Foo"]) 3 "name" [Arg.intArg 0] false)
      "track" (fun _ _ => [Arg.strArg "Foo"]) 3 "name" [Arg.intArg 0] false)
      3 "name" = 1 ∧
    (startListen (startListen initialRegistry "track"
        (fun _ _ => [Arg.strArg "Foo"]) 3 "name" [Arg.intArg 0] false)
      "track" (fun _ _ => [Arg.strArg "Foo"]) 3 "name" [Arg.intArg 0]
      false).emissions =
      (startListen initialRegistry "track" (fun _ _ => [Arg.strArg "Foo"])
        3 "name" [Arg.intArg 0] false).emissions ++
        [(oscAddressFor "track" "name", [Arg.intArg 0] ++ [Arg.strArg "Foo"])] :=
  start_listen_twice_one_hook initialRegistry "track"
    (fun _ _ => [Arg.strArg "Foo"]) 3 "name" [Arg.intArg 0] rfl rfl

/-! ## TCP bulk transfer protocol (OSCServer._handle_tcp_client) -/

/-- The UTF-8 encoded size of a character, by scalar value range. -/
def charUtf8Len (c : Char) : Nat :=
  if c.toNat < 128 then 1
  else if c.toNat < 2048 then 2
  else if c.toNat < 65536 then 3
  else 4

/-- The number of bytes in the UTF-8 encoding of s: the length of the
byte string the server actually writes with sendall after calling
encode on the payload. -/
def utf8Len (s : String) : Nat :=
  s.data.foldl (fun n c => n + charUtf8Len c) 0

/-- Python len() on a str: the number of Unicode code points, not
bytes.  This is the quantity _handle_tcp_client computes as data_len
before encoding. -/
def pyLen (s : String) : Nat :=
  s.data.length

/-- The response of one TCP request/response cycle: the value encoded
into the 4-byte big-endian length field, and the payload string whose
UTF-8 encoding follows it. -/
structure TcpReply where
  lengthField : Nat
  payload : String
deriving DecidableEq, Repr

/-- The registered-command path of OSCServer._handle_tcp_client: look
the request token up in tcp_handlers; on a hit, obtain the payload
from the handler (a str result is used verbatim; a non-str result is
JSON-encoded, which with Python's default ASCII-escaping never
produces non-ASCII text, so handlers returning str cover the
non-ASCII payloads — the handler here yields the final payload
string).  The code sets data_len to len of the payload STRING and
sends it as the 4-byte length field, then sends the UTF-8 encoding of
the payload. -/
def handleTcpRequest (handlers : List (String × (Unit → String)))
    (request : String) : Option TcpReply :=
  match (handlers.find? (fun p => p.1 == request)).map (fun p => p.2) with
  | some handler =>
    let responseData := handler ()
    some { lengthField := pyLen responseData, payload := responseData }
  | none => none

/-- Claim C5 (code bug): for the registered TCP command GET_NAME whose
handler returns the one-character string containing U+00E9, the
server's 4-byte length field carries 1 — len of the Python str —
while the UTF-8 payload that follows is 2 bytes long, so the length
field does not equal the number of UTF-8-encoded bytes.  The framing
the spec describes (and the client needs in order to read exactly the
right number of bytes) requires the byte count. -/
theorem tcp_length_field_counts_codepoints_not_bytes :
    handleTcpRequest [("GET_NAME", fun _ => "é")] "GET_NAME" =
      some { lengthField := 1, payload := "é" } ∧
    utf8Len "é" = 2 ∧ pyLen "é" = 1 ∧ pyLen "é" ≠ utf8Len "é" := by
  refine ⟨rfl, by decide, by decide, by decide⟩

/-! ## Drain loop (OSCServer.process) -/

/-- The fixed response port from constants.py (OSC_RESPONSE_PORT);
constants.py is not among the provided sources, but only the fact
that this is one fixed configured value matters to the claims. -/
def OSC_RESPONSE_PORT : Nat := 11001

/-- The transport state visible to OSCServer.send: the current default
remote address (the reply target) and the datagrams sent so far. -/
structure ServerState where
  remoteAddr : NetAddr
  sent : List SendRecord
deriving DecidableEq, Repr

/-- An outbound send requested while dispatching, as a call to
OSCServer.send: an explicit destination (some addr), or none for the
default, which send resolves to the current _remote_addr. -/
structure SendRequest where
  address : String
  params : List Arg
  dest : Option NetAddr
deriving DecidableEq, Repr

/-- OSCServer.send: build the message and emit it to the explicit
destination if one was passed, else to the current default remote
address. -/
def sendResolved (st : ServerState) (r : SendRequest) : ServerState :=
  { st with sent := st.sent ++
      [{ address := r.address, params := r.params,
         dest := r.dest.getD st.remoteAddr }] }

/-- One received datagram inside OSCServer.process: the sender address
recvfrom reported, and the outbound send calls that dispatching the
datagram performs, in order (the dispatcher's own replies pass an
explicit destination; subscription replays and other handler-initiated
sends pass none and use the default). -/
structure Datagram where
  senderHost : String
  senderPort : Nat
  requests : List SendRequest
deriving DecidableEq, Repr

/-- One iteration of the drain loop in OSCServer.process: first set
_remote_addr to (sender host, fixed response port), then parse and
dispatch the datagram, resolving each of its send calls. -/
def processDatagram (st : ServerState) (d : Datagram) : ServerState :=
  let st1 := { st with remoteAddr := (d.senderHost, OSC_RESPONSE_PORT) }
  d.requests.foldl sendResolved st1

/-- OSCServer.process: drain all currently queued datagrams in
arrival order. -/
def processAll (st : ServerState) (ds : List Datagram) : ServerState :=
  ds.foldl processDatagram st

theorem foldl_sendResolved (requests : List SendRequest) (st : ServerState) :
    requests.foldl sendResolved st =
      { st with sent := st.sent ++ requests.map (fun r =>
          { address := r.address, params := r.params,
            dest := r.dest.getD st.remoteAddr }) } := by
  induction requests generalizing st with
  | nil => simp
  | cons r rest ih =>
    rw [List.foldl_cons, ih]
    simp [sendResolved]

/-- Claim C7: for every received datagram, the reply target is updated
to (sender host, fixed response port) strictly before the datagram is
dispatched: every default-destination send performed while dispatching
it resolves to the datagram's own sender host on the fixed response
port — regardless of the reply target left by any earlier sender
(st.remoteAddr is arbitrary here and does not appear in any resolved
default destination). -/
theorem reply_target_updated_before_dispatch (st : ServerState) (d : Datagram) :
    (processDatagram st d).sent = st.sent ++ d.requests.map (fun r =>
      { address := r.address, params := r.params,
        dest := r.dest.getD (d.senderHost, OSC_RESPONSE_PORT) }) ∧
    (processDatagram st d).remoteAddr = (d.senderHost, OSC_RESPONSE_PORT) := by
  rw [processDatagram, foldl_sendResolved]
  exact ⟨rfl, rfl⟩

/-! ## Shutdown (OSCServer.shutdown and send_disconnect) -/

/-- The externally observable steps of the shutdown sequence. -/
inductive ShutdownEvent where
  | sendMsg (address : String) (params : List Arg) (dest : NetAddr)
  | sleepDelay
  | closeUdpSocket
  | closeTcpSocket
deriving DecidableEq, Repr

/-- OSCServer.send_disconnect: send /live/connection/disconnected with
the single argument 1 (a Python int literal, encoded by the message
builder as an OSC int32) through send with no explicit destination, so
it goes to the current default remote address — the last-known
client; then sleep briefly so the datagram leaves before the socket
closes.  The body is wrapped in a try/except, so nothing
propagates. -/
def sendDisconnect (remoteAddr : NetAddr) : List ShutdownEvent :=
  [.sendMsg "/live/connection/disconnected" [.intArg 1] remoteAddr, .sleepDelay]

/-- OSCServer.shutdown: first run send_disconnect, then close the UDP
socket, then — if the TCP server exists — close it inside a
try/except.  Modelled as the ordered event list the method performs;
the function is total, mirroring that no step propagates an
exception to the caller. -/
def shutdown (remoteAddr : NetAddr) (tcpServerExists : Bool) :
    List ShutdownEvent :=
  sendDisconnect remoteAddr ++ [.closeUdpSocket] ++
    (if tcpServerExists then [.closeTcpSocket] else [])

/-- Claim C8 counterexample: the disconnect notification's payload is
the single integer argument 1, which is not a boolean payload: it
differs from both one-element boolean argument lists.  (OSC types
arguments on the wire; the message builder tags a Python int as an
int32, not as a boolean.) -/
theorem shutdown_payload_not_boolean_counterexample :
    (shutdown ("127.0.0.1", 11001) true).head? =
      some (.sendMsg "/live/connection/disconnected" [.intArg 1]
        ("127.0.0.1", 11001)) ∧
    [Arg.intArg 1] ≠ [Arg.boolArg true] ∧ [Arg.intArg 1] ≠ [Arg.boolArg false] := by
  refine ⟨rfl, by decide, by decide⟩

/-- Claim C8 amended: shutdown() first sends the disconnect
notification /live/connection/disconnected with the single integer
argument 1 (a truthy flag, but an int32 — not a boolean) to the
last-known client, and only afterwards closes the UDP socket and then
the TCP socket; the sequence is total, so socket closure raises
nothing to the caller. -/
theorem shutdown_sends_disconnect_before_close (remoteAddr : NetAddr)
    (tcpServerExists : Bool) :
    ∃ closes, shutdown remoteAddr tcpServerExists =
      sendDisconnect remoteAddr ++ closes ∧
      ShutdownEvent.closeUdpSocket ∈ closes ∧
      ∀ e ∈ closes, e = ShutdownEvent.closeUdpSocket ∨
        e = ShutdownEvent.closeTcpSocket := by
  refine ⟨[ShutdownEvent.closeUdpSocket] ++
    (if tcpServerExists then [ShutdownEvent.closeTcpSocket] else []),
    (List.append_assoc _ _ _), List.mem_append_left _ (List.mem_singleton.mpr rfl),
    ?_⟩
  cases tcpServerExists <;> simp

end AbletonOSC
